import Mathlib

/-!
Verification development for the gemini client/server library.

The definitions below are shallow embeddings of the Go source:
strings are Lean strings, Go slices are Lean lists, Go `int` is `Int`,
fallible operations return `Option`.  Functions keep the source names
where Lean allows it.  String primitives from the Go standard library
(`strings.SplitN`, `strings.Trim`, `path.Clean`, ...) are implemented
here over the character list of the string so that every definition
evaluates by kernel reduction.
-/

namespace GeminiSpec

/-- Boolean string-prefix test (Go `strings.HasPrefix`). -/
def strStartsWith (s pre : String) : Bool :=
  pre.data.isPrefixOf s.data

/-- Boolean string-suffix test (Go `strings.HasSuffix`). -/
def strEndsWith (s suf : String) : Bool :=
  suf.data.isSuffixOf s.data

/-- Drops the first `n` characters (Go slicing `s[n:]` on ASCII input). -/
def strDrop (s : String) (n : Nat) : String :=
  ⟨s.data.drop n⟩

/-- Drops the last `n` characters. -/
def strDropRight (s : String) (n : Nat) : String :=
  ⟨s.data.take (s.data.length - n)⟩

/-- Character count of a string. -/
def strLen (s : String) : Nat :=
  s.data.length

/-- Embeds `strings.SplitN(path, "/", 2)` at the character-list level:
returns the part before the first slash and the part after it. -/
def splitSeg : List Char → List Char × List Char
  | [] => ([], [])
  | c :: rest =>
    if c = '/' then ([], rest)
    else
      let p := splitSeg rest
      (c :: p.1, p.2)

/-- Length bound used for termination of the path-walking recursions. -/
def splitSeg_snd_le : ∀ l : List Char, (splitSeg l).2.length ≤ l.length := by
  intro l
  induction l with
  | nil => simp [splitSeg]
  | cons c rest ih =>
    by_cases h : c = '/' <;> simp [splitSeg, h] <;> omega

/-- Embeds `pathSegment` (src/unnamed/part_007): splits off the first
`/`-delimited segment of a path, returning `(segment, remainder)`. -/
def pathSegment (s : String) : String × String :=
  let p := splitSeg s.data
  (⟨p.1⟩, ⟨p.2⟩)

/-- The remainder returned by `pathSegment` is strictly shorter than a
non-empty input, which justifies recursion on the remainder. -/
def pathSegment_snd_lt : ∀ s : String, s ≠ "" → (pathSegment s).2.length < s.length := by
  intro s hs
  cases s with
  | mk data =>
    cases data with
    | nil => simp at hs
    | cons c rest =>
      show (splitSeg (c :: rest)).2.length < (c :: rest).length
      by_cases h : c = '/'
      · simp [splitSeg, h]
      · have := splitSeg_snd_le rest
        simp [splitSeg, h]
        omega

/-- Embeds Go `strings.TrimPrefix`. -/
def trimPrefix (s pre : String) : String :=
  if strStartsWith s pre then strDrop s (strLen pre) else s

/-- Embeds Go `strings.TrimSuffix`. -/
def trimSuffix (s suf : String) : String :=
  if strEndsWith s suf then strDropRight s (strLen suf) else s

/-- Embeds Go `strings.Trim(s, "/")`: strips leading and trailing slashes. -/
def trimSlashes (s : String) : String :=
  ⟨((s.data.dropWhile (· = '/')).reverse.dropWhile (· = '/')).reverse⟩

/-- Full split of a character list at a separator (Go `strings.Split`). -/
def splitChar (sep : Char) : List Char → List (List Char)
  | [] => [[]]
  | c :: rest =>
    let acc := splitChar sep rest
    if c = sep then [] :: acc
    else
      match acc with
      | [] => [[c]]
      | a :: as => (c :: a) :: as

/-- Segment-stack processing of Go `path.Clean` for rooted paths: empty
and `.` segments are dropped, `..` pops the previously kept segment. -/
def cleanSegsStack : List (List Char) → List (List Char) → List (List Char)
  | [], acc => acc.reverse
  | s :: rest, acc =>
    if s = [] ∨ s = ['.'] then cleanSegsStack rest acc
    else if s = ['.', '.'] then cleanSegsStack rest (acc.drop 1)
    else cleanSegsStack rest (s :: acc)

/-- Joins segments with `/` separators (`strings.Join(segs, "/")`). -/
def joinSegs : List (List Char) → List Char
  | [] => []
  | [s] => s
  | s :: rest => s ++ '/' :: joinSegs rest

/-- Embeds Go `path.Clean` restricted to rooted inputs (every caller in
the source passes a string beginning with `/`). -/
def cleanRooted (p : String) : String :=
  let segs := cleanSegsStack (splitChar '/' p.data) []
  if segs = [] then "/" else ⟨'/' :: joinSegs segs⟩

/-- Embeds `cleanPath` (src/unnamed/part_007): `path.Clean` plus a
guaranteed leading slash and preservation of a trailing slash. -/
def cleanPath (p : String) : String :=
  if p = "" then "/"
  else
    let q := if strStartsWith p "/" then p else "/" ++ p
    let np := cleanRooted q
    if strEndsWith q "/" ∧ np ≠ "/" then np ++ "/" else np

/-! ## Status codes and the response value (src/response.go) -/

def StatusInput : Int := 10
def StatusSuccess : Int := 20
def StatusRedirect : Int := 30
def StatusPermanentRedirect : Int := 31
def StatusTemporaryFailure : Int := 40
def StatusCGIError : Int := 42
def StatusPermanentFailure : Int := 50
def StatusNotFound : Int := 51
def StatusCertificateRequired : Int := 60

/-- Sentinel value, one past the largest valid status code family
(src/response.go). -/
def statusSentinel : Int := 70

/-- Embeds `Response.IsSuccess` as a predicate on the status code. -/
def isSuccessStatus (st : Int) : Bool :=
  decide (StatusSuccess ≤ st) && decide (st < StatusRedirect)

/-- Embeds `Response.IsRedirect` as a predicate on the status code. -/
def isRedirectStatus (st : Int) : Bool :=
  decide (StatusRedirect ≤ st) && decide (st < StatusTemporaryFailure)

/-- Embeds `Response.statusIsUnknown` (src/response.go): note the strict
comparison against the sentinel. -/
def statusIsUnknown (st : Int) : Bool :=
  decide (st < StatusInput) || decide (st > statusSentinel)

/-- A decoded or to-be-encoded response: status, meta and body bytes.
The client-side streaming body is modelled as the string of bytes it
would deliver. -/
structure Resp where
  status : Int
  meta : String
  body : String := ""
deriving DecidableEq, Repr

/-- Embeds `fmt.Sprintf("%2d ...")`: decimal rendering space-padded on
the left to width two. -/
def pad2 (n : Int) : String :=
  let s := toString n
  if strLen s < 2 then " " ++ s else s

/-- Embeds `Response.Header` (src/response.go). -/
def respHeader (r : Resp) : String :=
  pad2 r.status ++ " " ++ r.meta

/-- Embeds `Response.WriteTo` (src/response.go): the header line is
always written, the body bytes are copied only for a Success status. -/
def writeTo (r : Resp) : String :=
  (respHeader r ++ "\r\n") ++ (if isSuccessStatus r.status then r.body else "")

/-! ## Server transaction engine (src/server.go)

`Server.serve` is modelled from the point where the request has been
decoded.  The connection is a byte sink with a closed flag: a TLS
connection write after `Close` fails and transmits nothing.  `errLog`
records the error prints of the engine (the recovered-panic log and the
double-`WriteStatus` warning); informational request prints are not part
of the model.  A handler execution is the list of writer calls it
performs followed by how it finishes (normal return, panic with
`ErrAbortHandler`, or panic with an ordinary value). -/

structure ServeState where
  wire : String
  closed : Bool
  errLog : List String
deriving DecidableEq, Repr

/-- Embeds the `responseWriter` fields (src/server.go). -/
structure RWriter where
  writtenStatus : Int
  writtenMeta : String
  hasWritten : Bool
deriving DecidableEq, Repr

/-- Embeds `newResponseWriter`. -/
def newResponseWriter : RWriter := ⟨0, "", false⟩

def initServeState : ServeState := ⟨"", false, []⟩

/-- A write on the underlying connection: after `Close` the TLS write
fails and no bytes reach the wire. -/
def connWrite (s : ServeState) (data : String) : ServeState :=
  if s.closed then s else { s with wire := s.wire ++ data }

/-- Embeds `responseWriter.WriteStatus` (src/server.go): a second call
is a no-op that only logs a warning; the first call records the status
and writes the `<status> <meta>\r\n` line. -/
def writeStatusImpl (w : RWriter) (s : ServeState) (code : Int) (meta : String) :
    RWriter × ServeState :=
  if w.hasWritten then
    (w, { s with errLog := s.errLog ++ ["Cannot write status multiple times"] })
  else
    (⟨code, meta, true⟩, connWrite s (toString code ++ " " ++ meta ++ "\r\n"))

/-- Embeds `responseWriter.Write` (src/server.go): an implicit
`WriteStatus(StatusSuccess, "text/gemini")` precedes the first body
write; the data itself is passed through to the connection unchanged,
with no check of the status band. -/
def writeImpl (w : RWriter) (s : ServeState) (data : String) : RWriter × ServeState :=
  let ws := if ¬ w.hasWritten then writeStatusImpl w s StatusSuccess "text/gemini" else (w, s)
  (ws.1, connWrite ws.2 data)

/-- One call a handler makes on its `ResponseWriter`. -/
inductive HAction where
  | write (data : String)
  | writeStatus (code : Int) (meta : String)
deriving DecidableEq, Repr

/-- How a handler execution finishes: normal return, or a panic that is
(`abort = true`) or is not the `ErrAbortHandler` sentinel
(src/unnamed/part_003). -/
inductive HOutcome where
  | ret
  | panicErr (abort : Bool)
deriving DecidableEq, Repr

/-- A handler execution: the writer calls it performed (up to the point
it returned or panicked) and how it finished. -/
structure HandlerRun where
  actions : List HAction
  outcome : HOutcome
deriving DecidableEq, Repr

def runAction (ws : RWriter × ServeState) (a : HAction) : RWriter × ServeState :=
  match a with
  | .write data => writeImpl ws.1 ws.2 data
  | .writeStatus code meta => writeStatusImpl ws.1 ws.2 code meta

def runActions (acts : List HAction) (ws : RWriter × ServeState) : RWriter × ServeState :=
  acts.foldl runAction ws

/-- Embeds `Server.serve` (src/server.go) from the point where
`ReadRequest` has succeeded.  The order of the deferred calls is the
reverse of their registration: `rwc.Close()` runs first, then the
recover handler, so the forced `StatusCGIError` write happens on the
already-closed connection.  On a normal return with nothing written the
body invokes the `NotFound` handler (`WriteStatus(StatusNotFound, "not
found")`) before the defers run. -/
def serve (h : HandlerRun) : RWriter × ServeState :=
  let ws1 := runActions h.actions (newResponseWriter, initServeState)
  let ws2 :=
    match h.outcome with
    | .ret => if ws1.1.hasWritten then ws1 else writeStatusImpl ws1.1 ws1.2 StatusNotFound "not found"
    | .panicErr _ => ws1
  let s3 : ServeState := { ws2.2 with closed := true }
  let s4 :=
    match h.outcome with
    | .panicErr false => { s3 with errLog := s3.errLog ++ ["gemini: panic serving"] }
    | _ => s3
  if ws2.1.hasWritten then (ws2.1, s4) else writeStatusImpl ws2.1 s4 StatusCGIError "internal panic"

/-! ## URLs (modelling `net/url` on the subset the source exercises)

The source delegates URL parsing and reference resolution to Go's
`net/url`.  The model below follows that library's `Parse`,
`ResolveReference` and `resolvePath` restricted to URLs without query,
fragment, userinfo or percent-escapes, which covers every URL the
claims mention. -/

structure GoURL where
  scheme : String
  opq : String := ""   -- models URL.Opaque
  host : String
  path : String
deriving DecidableEq, Repr

/-- ASCII lower-casing of a character. -/
def charLower (c : Char) : Char :=
  if 'A' ≤ c ∧ c ≤ 'Z' then Char.ofNat (c.toNat + 32) else c

def lowerStr (s : String) : String :=
  ⟨s.data.map charLower⟩

/-- Result of `net/url`'s `getScheme`. -/
inductive SchemeRes where
  | errRes
  | found (scheme rest : List Char)
deriving DecidableEq

/-- Models `net/url.getScheme`: scans for a `:` that terminates a valid
scheme; a leading `:` is an error; any other non-scheme character means
the whole input is scheme-less. -/
def getSchemeAux (acc : List Char) : List Char → SchemeRes × Bool
  | [] => (.errRes, false)
  | c :: rest =>
    if c.isAlpha then getSchemeAux (c :: acc) rest
    else if c.isDigit ∨ c = '+' ∨ c = '-' ∨ c = '.' then
      if acc = [] then (.errRes, false) else getSchemeAux (c :: acc) rest
    else if c = ':' then
      if acc = [] then (.errRes, true) else (.found acc.reverse rest, false)
    else (.errRes, false)

/-- `getScheme` on a string: `none` is the "missing protocol scheme"
error, otherwise `(scheme, rest)` with an empty scheme when no scheme
was present. -/
def getScheme (s : String) : Option (String × List Char) :=
  match getSchemeAux [] s.data with
  | (.found sch rest, _) => some (⟨sch⟩, rest)
  | (.errRes, true) => none
  | (.errRes, false) => some ("", s.data)

/-- Index of the last `/` in a character list, if any. -/
def lastSlashIdx : List Char → Option Nat
  | [] => none
  | c :: rest =>
    match lastSlashIdx rest with
    | some i => some (i + 1)
    | none => if c = '/' then some 0 else none

/-- One segment step of `net/url.resolvePath`: the accumulator is the
built path plus the `first` flag; `.` is dropped, `..` pops back to the
previous `/`, other segments are appended. -/
def resolvePathStep (acc : List Char × Bool) (elem : List Char) : List Char × Bool :=
  if elem = ['.'] then (acc.1, false)
  else if elem = ['.', '.'] then
    match lastSlashIdx acc.1 with
    | none => ([], true)
    | some i => (acc.1.take i, acc.2)
  else ((if acc.2 then acc.1 else acc.1 ++ ['/']) ++ elem, false)

/-- Models `net/url.resolvePath`: merges `ref` onto the directory of
`base` and eliminates `.` and `..` segments, always producing a rooted
path. -/
def resolvePath (base ref : String) : String :=
  let full : List Char :=
    if ref = "" then base.data
    else if ¬ strStartsWith ref "/" then
      (match lastSlashIdx base.data with
       | none => []
       | some i => base.data.take (i + 1)) ++ ref.data
    else ref.data
  if full = [] then ""
  else
    let elems := splitChar '/' full
    let res := elems.foldl resolvePathStep ([], true)
    let lastE := elems.getLastD []
    let dst := if lastE = ['.'] ∨ lastE = ['.', '.'] then res.1 ++ ['/'] else res.1
    match dst with
    | '/' :: _ => ⟨dst⟩
    | _ => ⟨'/' :: dst⟩

/-- Models `net/url.Parse` for a URI reference on the query-, fragment-
and escape-free subset: scheme detection, the rootless/opaque case, the
`//authority` case, and the colon check on a scheme-less first path
segment. -/
def parseURLRef (s : String) : Option GoURL :=
  match getScheme s with
  | none => none
  | some (scheme0, rest) =>
    let scheme := lowerStr scheme0
    if ['/'].isPrefixOf rest then
      if ['/', '/'].isPrefixOf rest ∧ (scheme ≠ "" ∨ ¬ ['/', '/', '/'].isPrefixOf rest) then
        let after := rest.drop 2
        let auth := after.takeWhile (· ≠ '/')
        let path := after.dropWhile (· ≠ '/')
        some ⟨scheme, "", ⟨auth⟩, ⟨path⟩⟩
      else
        some ⟨scheme, "", "", ⟨rest⟩⟩
    else
      if scheme ≠ "" then some ⟨scheme, ⟨rest⟩, "", ""⟩
      else if (rest.takeWhile (· ≠ '/')).contains ':' then none
      else some ⟨scheme, "", "", ⟨rest⟩⟩

/-- Models `net/url.URL.ResolveReference` on the same subset: an
absolute reference (or one with its own host) replaces everything, an
opaque reference replaces host and path, otherwise the reference path
is resolved against the base path. -/
def resolveReference (u ref : GoURL) : GoURL :=
  let scheme := if ref.scheme = "" then u.scheme else ref.scheme
  if ref.scheme ≠ "" ∨ ref.host ≠ "" then
    ⟨scheme, ref.opq, ref.host, resolvePath ref.path ""⟩
  else if ref.opq ≠ "" then
    ⟨scheme, ref.opq, "", ""⟩
  else
    ⟨scheme, ref.opq, u.host, resolvePath u.path ref.path⟩

/-! ## Requests (src/request.go) -/

/-- Embeds `NewRequestURL` (src/request.go): an empty scheme defaults to
`gemini` and the path is normalized with `cleanPath`.  A request is
modelled by its URL; the SNI and peer-certificate fields play no part in
the claims. -/
def newRequestURL (u : GoURL) : GoURL :=
  let u2 := if u.scheme = "" then { u with scheme := "gemini" } else u
  { u2 with path := cleanPath u2.path }

/-- Embeds `NewRequest` (src/request.go): parse, default an absent
scheme to `gemini`, then `NewRequestURL`. -/
def newRequest (raw : String) : Option GoURL :=
  match parseURLRef raw with
  | none => none
  | some u =>
    let u2 := if u.scheme = "" then { u with scheme := "gemini" } else u
    some (newRequestURL u2)

/-- Embeds `bufio.Reader.ReadString('\n')`: the bytes up to and
including the first newline, or a read error when no newline arrives
before the connection ends. -/
def readLine (input : String) : Option String :=
  if input.data.contains '\n' then
    some ⟨(input.data.takeWhile (· ≠ '\n')) ++ ['\n']⟩
  else none

/-- Embeds `ReadRequest` (src/request.go): one line is read, it must
end in CRLF, and the remainder is parsed as a URL.  The parsed URL is
stored in the request unchanged: no scheme defaulting happens here. -/
def readRequest (input : String) : Option GoURL :=
  match readLine input with
  | none => none
  | some line =>
    if ¬ strEndsWith line "\r\n" then none
    else
      match parseURLRef (trimSuffix line "\r\n") with
      | none => none
      | some u => some u

/-! ## Client transaction engine (src/client.go)

`DoContext` is modelled as a loop over an oracle list holding the
response the network would deliver for each successive request; an
exhausted oracle stands for a dial or read failure.  `Body.Close`
always succeeds in the model (its only failure source is the network).
The redirect policy is a boolean-valued function, `true` meaning the
policy returns an error. -/

inductive DoErr where
  | connFail
  | unknownStatus
  | unknownProtocol
  | metaParse
  | redirectPolicy
deriving DecidableEq, Repr

structure DoResult where
  resp : Option Resp
  err : Option DoErr
  sent : Nat
deriving DecidableEq, Repr

/-- Embeds `defaultCheckRedirect` (src/client.go): rejects once five or
more requests are already in the chain (`true` = policy error). -/
def defaultCheckRedirect (req : GoURL) (via : List GoURL) : Bool :=
  decide (via.length ≥ 5)

/-- Embeds `Client.DoContext` (src/client.go).  Per received response:
an unknown status is returned together with its soft error; a
non-redirect response ends the loop; a redirect closes the body, adds
the current request to the chain, resolves the meta against the current
URL, builds the next request, refuses a non-gemini scheme with
`ErrUnknownProtocol`, consults the redirect policy, and loops.  `sent`
counts the requests issued. -/
def doContextLoop (check : GoURL → List GoURL → Bool) :
    List Resp → GoURL → List GoURL → DoResult
  | [], _, _ => ⟨none, some .connFail, 1⟩
  | resp :: rest, r, reqs =>
    if statusIsUnknown resp.status then ⟨some resp, some .unknownStatus, 1⟩
    else if ¬ isRedirectStatus resp.status then ⟨some resp, none, 1⟩
    else
      let reqs2 := reqs ++ [r]
      match parseURLRef resp.meta with
      | none => ⟨none, some .metaParse, 1⟩
      | some ref =>
        let r2 := newRequestURL (resolveReference r ref)
        if r2.scheme ≠ "gemini" then ⟨some resp, some .unknownProtocol, 1⟩
        else if check r2 reqs2 then ⟨some resp, some .redirectPolicy, 1⟩
        else
          let out := doContextLoop check rest r2 reqs2
          ⟨out.resp, out.err, out.sent + 1⟩

/-- Embeds `Do`/`DoContext` entry: the request chain starts empty. -/
def doContext (check : GoURL → List GoURL → Bool) (oracle : List Resp) (r : GoURL) : DoResult :=
  doContextLoop check oracle r []

/-! ## Route tree (src/unnamed/part_002)

A handler value is either a user-registered handler (identified by a
number) or one of the two synthetic redirect handlers the matcher can
return.  A tree node carries the three handler slots, the literal
children and the single parameter child.  The Go node's `parent`
back-reference exists only so that `matchImpl` can walk up the chain of
nodes it descended through; the model passes that chain down explicitly
as the `ancestors` list (nearest parent first), which is exactly the
chain the pointers produce because `ensureNodeImpl` creates every child
with `parent` set to the creating node. -/

inductive GHandler where
  | user (id : Nat)
  | redirectAddSlash
  | redirectRemoveSlash
deriving DecidableEq, Repr

inductive Node where
  | mk (handler slashHandler catchAllHandler : Option GHandler)
       (children : List (String × Node)) (param : Option Node)

def Node.handler : Node → Option GHandler
  | .mk h _ _ _ _ => h

def Node.slashHandler : Node → Option GHandler
  | .mk _ s _ _ _ => s

def Node.catchAllHandler : Node → Option GHandler
  | .mk _ _ c _ _ => c

def Node.children : Node → List (String × Node)
  | .mk _ _ _ ch _ => ch

def Node.param : Node → Option Node
  | .mk _ _ _ _ p => p

def Node.withHandler : Node → Option GHandler → Node
  | .mk _ s c ch p, h => .mk h s c ch p

def Node.withSlash : Node → Option GHandler → Node
  | .mk h _ c ch p, s => .mk h s c ch p

def Node.withCatchAll : Node → Option GHandler → Node
  | .mk h s _ ch p, c => .mk h s c ch p

def Node.withChildren : Node → List (String × Node) → Node
  | .mk h s c _ p, ch => .mk h s c ch p

def Node.withParam : Node → Option Node → Node
  | .mk h s c ch _, p => .mk h s c ch p

/-- Embeds `newNode` (the parent pointer is carried by `ancestors`). -/
def emptyNode : Node := .mk none none none [] none

/-- Go map lookup on the children (keys are unique). -/
def lookupChild : List (String × Node) → String → Option Node
  | [], _ => none
  | (k, v) :: rest, key => if k = key then some v else lookupChild rest key

/-- Go map insert on the children. -/
def updateChild : List (String × Node) → String → Node → List (String × Node)
  | [], key, v => [(key, v)]
  | (k, w) :: rest, key, v =>
    if k = key then (key, v) :: rest else (k, w) :: updateChild rest key v

/-- Embeds the parent-walking loop at the end of `matchImpl`: the first
`catchAllHandler` found on the chain from the current node upward. -/
def firstCatchAll : List Node → Option GHandler
  | [] => none
  | n :: rest =>
    match n.catchAllHandler with
    | some h => some h
    | none => firstCatchAll rest

/-- Embeds `node.matchImpl` (src/unnamed/part_002).  `n = none` is the
Go nil receiver.  At a fully consumed path the precedence is
exact/slash handler, then a synthetic redirect, then the node's own
catch-all; otherwise the literal child is tried, then the parameter
child, then the add-slash redirect, then the parent-chain catch-all
with the remainder after the first unmatched segment appended to the
params. -/
def matchImplF (fuel : Nat) (n : Option Node) (ancestors : List Node) (origPath path : String)
    (allowRedirect hasSlash : Bool) (params : List String) : List String × Option GHandler :=
  match fuel with
  | 0 => ([], none)
  | fuel + 1 =>
    match n with
    | none => ([], none)
    | some nd =>
      if path = "" then
        if hasSlash then
          match nd.slashHandler with
          | some h => (params, some h)
          | none =>
            if allowRedirect && nd.handler.isSome then (params, some .redirectRemoveSlash)
            else (params, nd.catchAllHandler)
        else
          match nd.handler with
          | some h => (params, some h)
          | none =>
            if allowRedirect && nd.slashHandler.isSome then (params, some .redirectAddSlash)
            else (params, nd.catchAllHandler)
      else
        let seg := pathSegment path
        let st := matchImplF fuel (lookupChild nd.children seg.1) (nd :: ancestors) origPath
                    seg.2 allowRedirect hasSlash params
        if st.2.isSome then st
        else
          let pm := matchImplF fuel nd.param (nd :: ancestors) origPath seg.2
                      allowRedirect hasSlash (params ++ [seg.1])
          if pm.2.isSome then pm
          else if allowRedirect && !hasSlash then (params, some .redirectAddSlash)
          else (params ++ [seg.2], firstCatchAll (nd :: ancestors))

/-- `node.matchImpl` at its natural recursion bound.  The Go recursion
consumes at least one character of `path` per level, so `strLen path +
1` steps always suffice and the bound in `matchImplF` is never
exhausted. -/
def matchImpl (n : Option Node) (ancestors : List Node) (origPath path : String)
    (allowRedirect hasSlash : Bool) (params : List String) : List String × Option GHandler :=
  matchImplF (strLen path + 1) n ancestors origPath path allowRedirect hasSlash params

/-- Embeds `node.match` (src/unnamed/part_002). -/
def matchPath (nd : Node) (targetPath : String) (allowRedirect : Bool) :
    List String × Option GHandler :=
  let t := trimPrefix (cleanPath targetPath) "/"
  matchImpl (some nd) [] t t allowRedirect (strEndsWith t "/") []

/-- Embeds `node.ensureNodeImpl` fused with the handler-slot assignment
done by `node.Handle`: walks/creates nodes along the cleaned pattern and
applies `assign` at the target node (`none` signals the Go `panic` on an
occupied slot). -/
def ensureAssignF (fuel : Nat) (nd : Node) (path : String) (assign : Node → Option Node) :
    Option Node :=
  match fuel with
  | 0 => none
  | fuel + 1 =>
    if path = "" then assign nd
    else
      let seg := pathSegment path
      if seg.1 = ":rest" ∧ seg.2 = "" then assign nd
      else if strStartsWith seg.1 ":" then
        match ensureAssignF fuel (nd.param.getD emptyNode) seg.2 assign with
        | none => none
        | some p => some (nd.withParam (some p))
      else
        match ensureAssignF fuel ((lookupChild nd.children seg.1).getD emptyNode) seg.2 assign with
        | none => none
        | some c => some (nd.withChildren (updateChild nd.children seg.1 c))

/-- `ensureNodeImpl` + slot assignment at its natural recursion bound
(as with `matchImpl`, the bound is never exhausted because every level
consumes at least one character of the path). -/
def ensureAssign (nd : Node) (path : String) (assign : Node → Option Node) : Option Node :=
  ensureAssignF (strLen path + 1) nd path assign

/-- Embeds `node.Handle` (src/unnamed/part_002): clean the pattern,
classify it by its suffix (`/:rest`, `/`, bare) and assign the handler
to the corresponding slot of the target node; `none` is the build-time
`panic` for an occupied slot. -/
def nodeHandle (nd : Node) (pattern : String) (h : GHandler) : Option Node :=
  let pat := cleanPath pattern
  let hasRest := strEndsWith pat "/:rest"
  let hasSlash := strEndsWith pat "/"
  ensureAssign nd (trimSlashes pat) (fun t =>
    if hasRest then
      match t.catchAllHandler with
      | some _ => none
      | none => some (t.withCatchAll (some h))
    else if hasSlash then
      match t.slashHandler with
      | some _ => none
      | none => some (t.withSlash (some h))
    else
      match t.handler with
      | some _ => none
      | none => some (t.withHandler (some h)))

/-- What a synthetic redirect handler writes for a given request path
(src/unnamed/part_002 `redirectAddSlash` / `redirectRemoveSlash`):
status Redirect with the cleaned path plus or minus its trailing
slash.  User handlers are opaque here. -/
def runRedirectHandler (h : GHandler) (requestPath : String) : Option (Int × String) :=
  match h with
  | .redirectAddSlash => some (StatusRedirect, cleanPath requestPath ++ "/")
  | .redirectRemoveSlash => some (StatusRedirect, trimSuffix (cleanPath requestPath) "/")
  | .user _ => none

/-- The tree built by registering `/docs/`. -/
def docsSlashTree : Node := (nodeHandle emptyNode "/docs/" (.user 1)).getD emptyNode

/-- The tree built by registering `/docs`. -/
def docsExactTree : Node := (nodeHandle emptyNode "/docs" (.user 2)).getD emptyNode

/-- The tree built by registering the catch-all `/files/:rest`. -/
def filesTree : Node := (nodeHandle emptyNode "/files/:rest" (.user 7)).getD emptyNode

/-! ## Helper lemmas -/

theorem str_empty_append (s : String) : "" ++ s = s := by
  cases s
  rfl

theorem runActions_cons (a : HAction) (acts : List HAction) (ws : RWriter × ServeState) :
    runActions (a :: acts) ws = runActions acts (runAction ws a) := rfl

theorem runAction_sets_hasWritten (a : HAction) (ws : RWriter × ServeState) :
    (runAction ws a).1.hasWritten = true := by
  obtain ⟨w, s⟩ := ws
  cases a with
  | write data =>
    by_cases h : w.hasWritten
    · simp [runAction, writeImpl, h, writeStatusImpl]
    · simp [runAction, writeImpl, h, writeStatusImpl]
  | writeStatus code meta =>
    by_cases h : w.hasWritten
    · simp [runAction, writeStatusImpl, h]
    · simp [runAction, writeStatusImpl, h]

theorem runActions_hasWritten_mono (acts : List HAction) (ws : RWriter × ServeState)
    (h : ws.1.hasWritten = true) : (runActions acts ws).1.hasWritten = true := by
  induction acts generalizing ws with
  | nil => exact h
  | cons a rest ih =>
    rw [runActions_cons]
    by_cases ha : a = a
    · exact ih _ (runAction_sets_hasWritten a ws)
    · exact ih _ (runAction_sets_hasWritten a ws)

/-- If a handler execution leaves `hasWritten` false it performed no
writer calls at all, so the writer and connection are untouched. -/
theorem runActions_id_of_not_written (acts : List HAction) (ws : RWriter × ServeState)
    (h : (runActions acts ws).1.hasWritten = false) : runActions acts ws = ws := by
  cases acts with
  | nil => rfl
  | cons a rest =>
    exfalso
    rw [runActions_cons] at h
    have := runActions_hasWritten_mono rest (runAction ws a) (runAction_sets_hasWritten a ws)
    rw [this] at h
    simp at h

/-- A redirect-band status is never in the unknown range. -/
theorem redirect_not_unknown (st : Int) (h : isRedirectStatus st = true) :
    statusIsUnknown st = false := by
  simp [isRedirectStatus, StatusRedirect, StatusTemporaryFailure] at h
  simp [statusIsUnknown, StatusInput, statusSentinel]
  omega

theorem matchImplF_none (fuel : Nat) (anc : List Node) (orig path : String)
    (allow hs : Bool) (params : List String) :
    matchImplF fuel none anc orig path allow hs params = ([], none) := by
  cases fuel <;> rfl

/-- The catch-all fallback of `matchImpl`: at a node where neither a
literal child nor a parameter child exists for the next segment, and
the add-slash redirect is not applicable, the matcher returns the first
catch-all handler on the parent chain, with the remainder after the
first unmatched segment appended to the params. -/
theorem matchImpl_stuck (nd : Node) (anc : List Node) (orig path : String)
    (allow hs : Bool) (params : List String)
    (hne : path ≠ "")
    (hchild : lookupChild nd.children (pathSegment path).1 = none)
    (hparam : nd.param = none)
    (hred : (allow && !hs) = false) :
    matchImpl (some nd) anc orig path allow hs params =
      (params ++ [(pathSegment path).2], firstCatchAll (nd :: anc)) := by
  unfold matchImpl matchImplF
  simp [hne, hchild, hparam, hred, matchImplF_none]

/-! ## Claim theorems -/

/-- Claim C1: a handler that panics with the `ErrAbortHandler` sentinel
while nothing has been written leaves the connection silently closed:
no bytes (in particular no CGI-error status line) reach the wire and no
error is logged.  (The engine does invoke `WriteStatus(StatusCGIError)`
in its recover handler, but the deferred `rwc.Close()` has already run,
so the write fails and nothing is transmitted.) -/
theorem serve_abort_sentinel_silent (h : HandlerRun)
    (habort : h.outcome = .panicErr true)
    (hnw : (runActions h.actions (newResponseWriter, initServeState)).1.hasWritten = false) :
    (serve h).2.wire = "" ∧ (serve h).2.errLog = [] ∧ (serve h).2.closed = true := by
  obtain ⟨acts, outc⟩ := h
  subst habort
  have hid := runActions_id_of_not_written acts (newResponseWriter, initServeState) hnw
  unfold serve
  rw [hid]
  exact ⟨rfl, rfl, rfl⟩

theorem serve_abort_sentinel_silent_witness :
    (HandlerRun.mk [] (.panicErr true)).outcome = .panicErr true ∧
    (runActions [] (newResponseWriter, initServeState)).1.hasWritten = false ∧
    ((serve ⟨[], .panicErr true⟩).2.wire = "" ∧ (serve ⟨[], .panicErr true⟩).2.errLog = [] ∧
      (serve ⟨[], .panicErr true⟩).2.closed = true) :=
  ⟨rfl, rfl, serve_abort_sentinel_silent ⟨[], .panicErr true⟩ rfl rfl⟩

/-- Claim C2, counterexample: a handler whose first `WriteStatus` uses
status 51 (outside the Success band) and which then calls `Write`
produces the body bytes on the wire — `responseWriter.Write` does not
check the status band, so the server-side enforcement the claim
describes does not exist. -/
theorem serve_body_after_error_status :
    (serve ⟨[.writeStatus 51 "x", .write "BODY"], .ret⟩).2.wire = "51 x\r\nBODY" ∧
    isSuccessStatus 51 = false ∧
    (serve ⟨[.writeStatus 51 "x", .write "BODY"], .ret⟩).2.wire ≠ "51 x\r\n" := by
  decide

/-- Claim C2, amended: only the encoder side enforces the band —
`Response.WriteTo` copies body bytes exactly when the status is in the
Success band, while the server's `responseWriter.Write` passes body
bytes through to the connection regardless of the status previously
set by `WriteStatus`. -/
theorem writeTo_band_enforcement :
    (∀ r : Resp, isSuccessStatus r.status = false → writeTo r = respHeader r ++ "\r\n") ∧
    (∀ r : Resp, isSuccessStatus r.status = true →
      writeTo r = (respHeader r ++ "\r\n") ++ r.body) ∧
    (∀ (st : Int) (m data : String),
      (serve ⟨[.writeStatus st m, .write data], .ret⟩).2.wire =
        (toString st ++ " " ++ m ++ "\r\n") ++ data) := by
  refine ⟨?_, ?_, ?_⟩
  · intro r hr
    simp [writeTo, hr]
  · intro r hr
    simp [writeTo, hr]
  · intro st m data
    show (serve ⟨[.writeStatus st m, .write data], .ret⟩).2.wire =
      (toString st ++ " " ++ m ++ "\r\n") ++ data
    unfold serve runActions
    simp [runAction, writeStatusImpl, writeImpl, connWrite, newResponseWriter, initServeState,
      str_empty_append]

theorem writeTo_band_enforcement_witness :
    isSuccessStatus (51 : Int) = false ∧
    writeTo ⟨51, "x", "BODY"⟩ = respHeader ⟨51, "x", "BODY"⟩ ++ "\r\n" ∧
    isSuccessStatus (20 : Int) = true ∧
    writeTo ⟨20, "text/gemini", "hi"⟩ =
      (respHeader ⟨20, "text/gemini", "hi"⟩ ++ "\r\n") ++ "hi" ∧
    (serve ⟨[.writeStatus 51 "x", .write "BODY"], .ret⟩).2.wire =
      (toString (51 : Int) ++ " " ++ "x" ++ "\r\n") ++ "BODY" :=
  ⟨by decide, writeTo_band_enforcement.1 ⟨51, "x", "BODY"⟩ (by decide), by decide,
    writeTo_band_enforcement.2.1 ⟨20, "text/gemini", "hi"⟩ (by decide),
    writeTo_band_enforcement.2.2 51 "x" "BODY"⟩

/-- Claim C9: a handler that never calls `WriteStatus` and calls
`Write(data)` once produces the implicit `20 text/gemini` status line
followed by the body bytes; the recorded status is Success with the
default media type. -/
theorem implicit_success_status_on_write (data : String) :
    (serve ⟨[.write data], .ret⟩).1.writtenStatus = StatusSuccess ∧
    (serve ⟨[.write data], .ret⟩).1.writtenMeta = "text/gemini" ∧
    (serve ⟨[.write data], .ret⟩).2.wire = "20 text/gemini\r\n" ++ data := by
  refine ⟨rfl, rfl, ?_⟩
  unfold serve runActions
  simp [runAction, writeImpl, writeStatusImpl, connWrite, newResponseWriter, initServeState,
    str_empty_append, StatusSuccess]
  congr 1

/-- Claim C7: the code treats status 70 as a known status even though
70 lies outside the half-open range `[10,70)` — `statusIsUnknown`
compares with `> statusSentinel` instead of `≥`, so `DoContext` returns
a status-70 response with no `UnknownStatus` error, although 70 belongs
to no band (`IsCertificateRequired` stops at 69). -/
theorem status_seventy_treated_known :
    statusIsUnknown statusSentinel = false ∧
    ¬ (StatusInput ≤ (70 : Int) ∧ (70 : Int) < statusSentinel) ∧
    isSuccessStatus 70 = false ∧ isRedirectStatus 70 = false ∧
    statusIsUnknown 9 = true ∧ statusIsUnknown 71 = true ∧
    doContext defaultCheckRedirect [⟨70, "oops", ""⟩] ⟨"gemini", "", "h", "/"⟩ =
      ⟨some ⟨70, "oops", ""⟩, none, 1⟩ := by
  decide

/-- Claim C3: at a node where the path is fully consumed the matcher's
precedence is: with a trailing slash, the slash handler, else (redirects
allowed, exact set) the synthetic remove-slash redirect, else the node's
catch-all; without a trailing slash, the exact handler, else (redirects
allowed, slash set) the synthetic add-slash redirect, else the
catch-all.  Registering `/docs/` and matching `/docs` with redirects
yields the add-slash redirect whose meta is `/docs/`, and conversely for
`/docs` matched as `/docs/`. -/
theorem match_leaf_precedence :
    (∀ (nd : Node) (anc : List Node) (orig : String) (allow : Bool) (params : List String)
        (h : GHandler), nd.slashHandler = some h →
      matchImpl (some nd) anc orig "" allow true params = (params, some h)) ∧
    (∀ (nd : Node) (anc : List Node) (orig : String) (params : List String),
      nd.slashHandler = none → nd.handler.isSome = true →
      matchImpl (some nd) anc orig "" true true params =
        (params, some .redirectRemoveSlash)) ∧
    (∀ (nd : Node) (anc : List Node) (orig : String) (allow : Bool) (params : List String),
      nd.slashHandler = none → (allow = false ∨ nd.handler = none) →
      matchImpl (some nd) anc orig "" allow true params = (params, nd.catchAllHandler)) ∧
    (∀ (nd : Node) (anc : List Node) (orig : String) (allow : Bool) (params : List String)
        (h : GHandler), nd.handler = some h →
      matchImpl (some nd) anc orig "" allow false params = (params, some h)) ∧
    (∀ (nd : Node) (anc : List Node) (orig : String) (params : List String),
      nd.handler = none → nd.slashHandler.isSome = true →
      matchImpl (some nd) anc orig "" true false params = (params, some .redirectAddSlash)) ∧
    (∀ (nd : Node) (anc : List Node) (orig : String) (allow : Bool) (params : List String),
      nd.handler = none → (allow = false ∨ nd.slashHandler = none) →
      matchImpl (some nd) anc orig "" allow false params = (params, nd.catchAllHandler)) ∧
    (nodeHandle emptyNode "/docs/" (.user 1)).isSome = true ∧
    matchPath docsSlashTree "/docs" true = ([], some .redirectAddSlash) ∧
    runRedirectHandler .redirectAddSlash "/docs" = some (StatusRedirect, "/docs/") ∧
    (nodeHandle emptyNode "/docs" (.user 2)).isSome = true ∧
    matchPath docsExactTree "/docs/" true = ([], some .redirectRemoveSlash) ∧
    runRedirectHandler .redirectRemoveSlash "/docs/" = some (StatusRedirect, "/docs") ∧
    matchPath docsSlashTree "/docs/" true = ([], some (.user 1)) ∧
    matchPath docsExactTree "/docs" true = ([], some (.user 2)) := by
  refine ⟨?_, ?_, ?_, ?_, ?_, ?_, by decide, by decide, by decide, by decide, by decide,
    by decide, by decide, by decide⟩
  · intro nd anc orig allow params h hsl
    simp [matchImpl, matchImplF, strLen, hsl]
  · intro nd anc orig params hsl hh
    simp [matchImpl, matchImplF, strLen, hsl, hh]
  · intro nd anc orig allow params hsl hfall
    rcases hfall with hfall | hfall
    · simp [matchImpl, matchImplF, strLen, hsl, hfall]
    · simp [matchImpl, matchImplF, strLen, hsl, hfall]
  · intro nd anc orig allow params h hh
    simp [matchImpl, matchImplF, strLen, hh]
  · intro nd anc orig params hh hsl
    simp [matchImpl, matchImplF, strLen, hh, hsl]
  · intro nd anc orig allow params hh hfall
    rcases hfall with hfall | hfall
    · simp [matchImpl, matchImplF, strLen, hh, hfall]
    · simp [matchImpl, matchImplF, strLen, hh, hfall]

theorem match_leaf_precedence_witness :
    (Node.mk none (some (.user 9)) none [] none).slashHandler = some (.user 9) ∧
    matchImpl (some (Node.mk none (some (.user 9)) none [] none)) [] "" "" false true [] =
      ([], some (.user 9)) ∧
    matchPath docsSlashTree "/docs" true = ([], some .redirectAddSlash) := by
  have t := match_leaf_precedence
  exact ⟨rfl, t.1 (Node.mk none (some (.user 9)) none [] none) [] "" false [] (.user 9) rfl,
    t.2.2.2.2.2.2.2.1⟩

/-- Claim C4, counterexample: with redirects allowed (the `ServeMux`
default) a catch-all registered at `/files/:rest` does NOT match
`/files/sub/dir/x.txt`; the matcher returns the synthetic add-slash
redirect instead of the registered catch-all handler, because the
add-slash redirect is tried before the parent-chain catch-all walk
whenever the path has no trailing slash. -/
theorem files_catchall_shadowed :
    (nodeHandle emptyNode "/files/:rest" (.user 7)).isSome = true ∧
    matchPath filesTree "/files/sub/dir/x.txt" true = ([], some .redirectAddSlash) ∧
    (matchPath filesTree "/files/sub/dir/x.txt" true).2 ≠ some (.user 7) := by
  decide

/-- Claim C4, amended: when redirects are disallowed or the path ends in
a slash, a match that gets stuck below an ancestor holding a catch-all
returns the first catch-all found by walking the parent chain upward;
in particular `/files/:rest` matches `/files/sub/dir/x.txt` with
redirects disallowed, and matches `/files/sub/dir/x.txt/` with them
allowed.  With redirects allowed and no trailing slash the synthetic
add-slash redirect takes precedence. -/
theorem catchall_parent_walk :
    (∀ (nd : Node) (anc : List Node) (orig path : String) (allow hs : Bool)
        (params : List String), path ≠ "" →
      lookupChild nd.children (pathSegment path).1 = none → nd.param = none →
      (allow && !hs) = false →
      matchImpl (some nd) anc orig path allow hs params =
        (params ++ [(pathSegment path).2], firstCatchAll (nd :: anc))) ∧
    matchPath filesTree "/files/sub/dir/x.txt" false = (["dir/x.txt"], some (.user 7)) ∧
    matchPath filesTree "/files/sub/dir/x.txt/" true = (["dir/x.txt/"], some (.user 7)) := by
  exact ⟨matchImpl_stuck, by decide, by decide⟩

theorem catchall_parent_walk_witness :
    matchImpl (some (Node.mk none none (some (.user 3)) [] none)) [] "a/b" "a/b" false false [] =
      (["b"], some (.user 3)) := by
  have t := catchall_parent_walk.1 (Node.mk none none (some (.user 3)) [] none) [] "a/b" "a/b"
    false false [] (by decide) rfl rfl rfl
  rw [t]
  decide

/-- Claim C10: when the matcher falls back to the catch-all (reachable
only with redirects disallowed or a trailing slash present), the value
appended to the captured params is the remainder produced by
`pathSegment`, i.e. the unmatched tail with its first segment removed —
the first unmatched segment appears in no captured parameter. -/
theorem catchall_params_drop_first_segment :
    ∀ (nd : Node) (anc : List Node) (orig path : String) (allow hs : Bool)
        (params : List String), path ≠ "" →
      lookupChild nd.children (pathSegment path).1 = none → nd.param = none →
      (allow && !hs) = false →
      (matchImpl (some nd) anc orig path allow hs params).1 =
        params ++ [(pathSegment path).2] := by
  intro nd anc orig path allow hs params hne hchild hparam hred
  rw [matchImpl_stuck nd anc orig path allow hs params hne hchild hparam hred]

theorem catchall_params_drop_first_segment_witness :
    (matchImpl (some (Node.mk none none (some (.user 4)) [] none)) [] "p/q/r" "p/q/r"
        true true []).1 = ["q/r"] ∧
    (pathSegment "p/q/r").1 = "p" ∧ (pathSegment "p/q/r").2 = "q/r" := by
  have t := catchall_params_drop_first_segment (Node.mk none none (some (.user 4)) [] none) []
    "p/q/r" "p/q/r" true true [] (by decide) rfl rfl rfl
  rw [t]
  exact ⟨by decide, by decide, by decide⟩

/-- Claim C5: on a redirect-band response the next request URL is the
response meta parsed as a URL reference and resolved against the
current request URL (then normalized by `NewRequestURL`); if the scheme
of that next request is not `gemini`, `DoContext` stops, returning the
redirect response together with the `UnknownProtocol` error and issuing
no further request (`sent = 1`). -/
theorem redirect_resolution_scheme_check :
    ∀ (check : GoURL → List GoURL → Bool) (rest : List Resp) (r : GoURL)
      (reqs : List GoURL) (resp : Resp) (ref : GoURL),
      isRedirectStatus resp.status = true →
      parseURLRef resp.meta = some ref →
      (((newRequestURL (resolveReference r ref)).scheme = "gemini" →
          check (newRequestURL (resolveReference r ref)) (reqs ++ [r]) = false →
          doContextLoop check (resp :: rest) r reqs =
            ⟨(doContextLoop check rest (newRequestURL (resolveReference r ref))
                (reqs ++ [r])).resp,
             (doContextLoop check rest (newRequestURL (resolveReference r ref))
                (reqs ++ [r])).err,
             (doContextLoop check rest (newRequestURL (resolveReference r ref))
                (reqs ++ [r])).sent + 1⟩) ∧
       ((newRequestURL (resolveReference r ref)).scheme ≠ "gemini" →
          doContextLoop check (resp :: rest) r reqs = ⟨some resp, some .unknownProtocol, 1⟩)) := by
  intro check rest r reqs resp ref hred hparse
  have hu := redirect_not_unknown resp.status hred
  constructor
  · intro hscheme hpolicy
    simp [doContextLoop, hu, hred, hparse, hscheme, hpolicy]
  · intro hscheme
    simp [doContextLoop, hu, hred, hparse, hscheme]

theorem redirect_resolution_scheme_check_witness :
    doContextLoop defaultCheckRedirect [⟨31, "b", ""⟩, ⟨20, "text/gemini", "ok"⟩]
      ⟨"gemini", "", "h", "/a/x"⟩ [] = ⟨some ⟨20, "text/gemini", "ok"⟩, none, 2⟩ ∧
    newRequestURL (resolveReference ⟨"gemini", "", "h", "/a/x"⟩ ⟨"", "", "", "b"⟩) =
      ⟨"gemini", "", "h", "/a/b"⟩ ∧
    doContextLoop defaultCheckRedirect [⟨31, "https://web.example/z", ""⟩]
      ⟨"gemini", "", "h", "/"⟩ [] =
      ⟨some ⟨31, "https://web.example/z", ""⟩, some .unknownProtocol, 1⟩ := by
  have t := redirect_resolution_scheme_check defaultCheckRedirect [⟨20, "text/gemini", "ok"⟩]
    ⟨"gemini", "", "h", "/a/x"⟩ [] ⟨31, "b", ""⟩ ⟨"", "", "", "b"⟩ (by decide) (by decide)
  have t2 := redirect_resolution_scheme_check defaultCheckRedirect []
    ⟨"gemini", "", "h", "/"⟩ [] ⟨31, "https://web.example/z", ""⟩
    ⟨"https", "", "web.example", "/z"⟩ (by decide) (by decide)
  refine ⟨?_, by decide, t2.2 (by decide)⟩
  have h1 := t.1 (by decide) (by decide)
  rw [h1]
  decide

/-- Claim C6: the default redirect policy rejects exactly when five or
more requests are already in the chain, so a chain of redirects is cut
after five issued requests; and whenever the (default or custom)
policy returns an error on the upcoming request, `DoContext` returns
the last received response together with the policy error and issues no
further request (`sent = 1`). -/
theorem redirect_policy_limit :
    (∀ (req : GoURL) (via : List GoURL), via.length ≥ 5 → defaultCheckRedirect req via = true) ∧
    (∀ (req : GoURL) (via : List GoURL), via.length < 5 → defaultCheckRedirect req via = false) ∧
    (∀ (check : GoURL → List GoURL → Bool) (rest : List Resp) (r : GoURL)
        (reqs : List GoURL) (resp : Resp) (ref : GoURL),
      isRedirectStatus resp.status = true →
      parseURLRef resp.meta = some ref →
      (newRequestURL (resolveReference r ref)).scheme = "gemini" →
      check (newRequestURL (resolveReference r ref)) (reqs ++ [r]) = true →
      doContextLoop check (resp :: rest) r reqs = ⟨some resp, some .redirectPolicy, 1⟩) ∧
    doContext defaultCheckRedirect (List.replicate 6 ⟨31, "/r", ""⟩) ⟨"gemini", "", "h", "/"⟩ =
      ⟨some ⟨31, "/r", ""⟩, some .redirectPolicy, 5⟩ := by
  refine ⟨?_, ?_, ?_, by decide⟩
  · intro req via h
    simp [defaultCheckRedirect]
    omega
  · intro req via h
    simp [defaultCheckRedirect]
    omega
  · intro check rest r reqs resp ref hred hparse hscheme hpolicy
    have hu := redirect_not_unknown resp.status hred
    simp [doContextLoop, hu, hred, hparse, hscheme, hpolicy]

theorem redirect_policy_limit_witness :
    defaultCheckRedirect ⟨"gemini", "", "h", "/"⟩
      (List.replicate 5 ⟨"gemini", "", "h", "/"⟩) = true ∧
    defaultCheckRedirect ⟨"gemini", "", "h", "/"⟩ [] = false ∧
    doContextLoop (fun _ _ => true) [⟨31, "/next", ""⟩, ⟨20, "m", ""⟩]
      ⟨"gemini", "", "h", "/"⟩ [] = ⟨some ⟨31, "/next", ""⟩, some .redirectPolicy, 1⟩ := by
  refine ⟨redirect_policy_limit.1 _ _ (by decide), redirect_policy_limit.2.1 _ _ (by decide), ?_⟩
  exact redirect_policy_limit.2.2.1 (fun _ _ => true) [⟨20, "m", ""⟩] ⟨"gemini", "", "h", "/"⟩
    [] ⟨31, "/next", ""⟩ ⟨"", "", "", "/next"⟩ (by decide) (by decide) (by decide) rfl

/-- Claim C8, counterexample: server-side request decoding does not
default the scheme.  `ReadRequest` stores the parsed URL unchanged, so
the request decoded from the line `/foo\r\n` has an empty scheme, not
`gemini`. -/
theorem readRequest_keeps_empty_scheme :
    readRequest "/foo\r\n" = some ⟨"", "", "", "/foo"⟩ ∧
    (readRequest "/foo\r\n").map GoURL.scheme = some "" ∧
    ("" : String) ≠ "gemini" := by
  decide

/-- Claim C8, amended: decoding fails when the CRLF terminator is
absent, and otherwise parses the line as a URL which is stored in the
request exactly as parsed (an absent scheme stays empty); the
defaulting of an absent scheme to `gemini` happens in
`NewRequest`/`NewRequestURL`, the client-side constructors, not in
`ReadRequest`. -/
theorem readRequest_decode_spec :
    (∀ input : String, readLine input = none → readRequest input = none) ∧
    (∀ (input line : String), readLine input = some line → strEndsWith line "\r\n" = false →
      readRequest input = none) ∧
    (∀ (input line : String) (u : GoURL), readLine input = some line →
      strEndsWith line "\r\n" = true → parseURLRef (trimSuffix line "\r\n") = some u →
      readRequest input = some u) ∧
    (∀ (raw : String) (u : GoURL), parseURLRef raw = some u → u.scheme = "" →
      (newRequest raw).map GoURL.scheme = some "gemini") := by
  refine ⟨?_, ?_, ?_, ?_⟩
  · intro input h
    simp [readRequest, h]
  · intro input line h1 h2
    simp [readRequest, h1, h2]
  · intro input line u h1 h2 h3
    simp [readRequest, h1, h2, h3]
  · intro raw u h1 h2
    simp [newRequest, h1, h2, newRequestURL]

theorem readRequest_decode_spec_witness :
    readLine "gemini://h/p\r\n" = some "gemini://h/p\r\n" ∧
    readRequest "gemini://h/p\r\n" = some ⟨"gemini", "", "h", "/p"⟩ ∧
    readRequest "nonewline" = none ∧
    (newRequest "/foo").map GoURL.scheme = some "gemini" := by
  refine ⟨by decide, ?_, ?_, ?_⟩
  · exact readRequest_decode_spec.2.2.1 "gemini://h/p\r\n" "gemini://h/p\r\n"
      ⟨"gemini", "", "h", "/p"⟩ (by decide) (by decide) (by decide)
  · exact readRequest_decode_spec.1 "nonewline" (by decide)
  · exact readRequest_decode_spec.2.2.2 "/foo" ⟨"", "", "", "/foo"⟩ (by decide) (by decide)

end GeminiSpec
